import Mathlib

set_option maxHeartbeats 1000000

/-! Verification of the client-side HTTP response cache (`apiCache`) and the
endpoint wrappers of the tikinanaly sports-data web front-end.

The endpoint wrappers (`getAllPlayers`, `getFixturesByLeague`,
`getLiveBasketballMatches`, `clearAllBasketballCache`, ...) are translated
from the repository's `endpoints.ts` source.  The cache module itself (the
`apiCache` object imported from `cache.ts`) is not part of the source tree we
were given — only its callers are — so its operations (key encoder, entry
store, get/set/clear/clearAll) are modelled from the specification; each such
definition carries a doc comment starting `Modelled from the spec:`. -/

mutual
/-- A JSON-like payload value as stored in the cache.  `null` is a legitimate
payload value in this domain, distinct from a cache miss.  Objects are
represented with an explicit field-list type so that equality is decidable. -/
inductive JsVal : Type where
  | null : JsVal
  | boolean : Bool → JsVal
  | num : Int → JsVal
  | str : String → JsVal
  | obj : JsFields → JsVal
/-- Field list of a JSON-like object value. -/
inductive JsFields : Type where
  | fnil : JsFields
  | fcons : String → JsVal → JsFields → JsFields
end

deriving instance DecidableEq for JsVal
deriving instance DecidableEq for JsFields

/-- A query-parameter mapping: keys with consistently stringified scalar
values.  Numeric parameters are stringified with `toString` at the wrapper
boundary — the single stringification policy the spec's key-encoder contract
asks an implementation to pick and document. -/
abbrev Params := List (String × String)

namespace apiCache

/-- Modelled from the spec: character-level escaping used by the key
encoder's canonical serialization, so that the separator characters of the
serialized form never occur in an escaped key or value and no two distinct
parameter mappings can collide on one key. -/
def escChar (c : Char) : List Char :=
  if c = '%' then ['%', 'p']
  else if c = '&' then ['%', 'a']
  else if c = '=' then ['%', 'e']
  else [c]

/-- Modelled from the spec: escape a whole string (as a character list). -/
def escape (s : List Char) : List Char := s.flatMap escChar

/-- Decode one escape tag character. -/
def decodeTag (t : Char) : Char :=
  if t = 'p' then '%' else if t = 'a' then '&' else if t = 'e' then '=' else t

/-- Inverse of `escape`, used to prove `escape` injective. -/
def unescape : List Char → List Char
  | [] => []
  | [c] => if c = '%' then [] else [c]
  | c :: t :: rest =>
    if c = '%' then decodeTag t :: unescape rest
    else c :: unescape (t :: rest)

/-- Modelled from the spec: serialize one `key=value` pair of the canonical
form. -/
def serPair (kv : String × String) : List Char :=
  escape kv.1.data ++ '=' :: escape kv.2.data

/-- Modelled from the spec: serialize a canonically ordered parameter list,
joining the `key=value` pairs with `&`. -/
def serParams : Params → List Char
  | [] => []
  | kv :: rest =>
    match rest with
    | [] => serPair kv
    | _ :: _ => serPair kv ++ '&' :: serParams rest

/-- Strict lexicographic order on character lists, by code point. -/
def lexLt : List Char → List Char → Bool
  | [], [] => false
  | [], _ :: _ => true
  | _ :: _, [] => false
  | a :: as, b :: bs =>
    if a.toNat < b.toNat then true
    else if b.toNat < a.toNat then false
    else lexLt as bs

/-- Strict lexicographic order on strings, by code point. -/
def keyLt (a b : String) : Bool := lexLt a.data b.data

/-- Modelled from the spec: insert a pair into a list sorted by key. -/
def insertPair (kv : String × String) : Params → Params
  | [] => [kv]
  | h :: t => if keyLt kv.1 h.1 then kv :: h :: t else h :: insertPair kv t

/-- Modelled from the spec: canonical (lexicographic-by-key) ordering of a
parameter mapping, so that the caller's insertion order never affects the
derived key. -/
def sortParams : Params → Params
  | [] => []
  | kv :: t => insertPair kv (sortParams t)

/-- Lookup of a key in a parameter mapping (first binding wins). -/
def lookupKey (k : String) : Params → Option String
  | [] => none
  | (k2, v) :: t => if k2 = k then some v else lookupKey k t

/-- Two optional parameter mappings are equal as mappings: absent parameters
are equivalent to an empty mapping, and only the key-to-value association
matters, not insertion order. -/
def mappingEquiv (p1 p2 : Option Params) : Prop :=
  ∀ k, lookupKey k (p1.getD []) = lookupKey k (p2.getD [])

/-- Modelled from the spec: the Key Encoder.  If `params` is absent or empty
the key is the endpoint identifier alone; otherwise the parameters are
serialized in canonical (sorted-key) order and concatenated onto the
endpoint identifier. -/
def encode (endpoint : String) (params : Option Params) : String :=
  match params with
  | none => endpoint
  | some [] => endpoint
  | some ps => endpoint ++ "?" ++ String.mk (serParams (sortParams ps))

/-- A parameter list is in canonical form when its keys are strictly
increasing. -/
def SortedKeys (l : Params) : Prop :=
  l.Pairwise (fun a b => keyLt a.1 b.1 = true)

/-- The key encoder on a plain (defaulted) parameter list; `encode` agrees
with it after `Option.getD`. -/
def encodeL (endpoint : String) (ps : Params) : String :=
  match ps with
  | [] => endpoint
  | _ :: _ => endpoint ++ "?" ++ String.mk (serParams (sortParams ps))

/-- Modelled from the spec: a cache entry, owning the originating endpoint
identifier (for endpoint-scoped `clear`), the opaque payload, the storing
time and the per-entry time-to-live in milliseconds. -/
structure CacheEntry where
  endpoint : String
  value : JsVal
  storedAt : Nat
  ttl : Nat

deriving instance DecidableEq for CacheEntry

/-- Modelled from the spec: the Entry Store, a mapping from cache keys to
entries. -/
abbrev CacheState := String → Option CacheEntry

/-- Modelled from the spec: the documented default TTL used when a `set`
passes a ttl of 0 (or omits it). -/
def defaultTTL : Nat := 5 * 60 * 1000

/-- The empty Entry Store. -/
def emptyCache : CacheState := fun _ => none

/-- Modelled from the spec: `set` unconditionally overwrites any existing
entry for the derived key, with `storedAt = now` and the given ttl (a ttl of
0 meaning the default). -/
def set (st : CacheState) (now : Nat) (endpoint : String) (value : JsVal)
    (params : Option Params) (ttl : Nat) : CacheState :=
  fun k =>
    if k = encode endpoint params then
      some ⟨endpoint, value, now, if ttl = 0 then defaultTTL else ttl⟩
    else st k

/-- Modelled from the spec: the full effect of a `get` operation — the lookup
result (the stored value if the entry is live, i.e. `now - storedAt < ttl`,
and the miss sentinel otherwise) together with the resulting store, which a
`get` never modifies (lazy expiry: dead entries are misses but are not
deleted on read). -/
def getOp (st : CacheState) (now : Nat) (endpoint : String)
    (params : Option Params) : Option JsVal × CacheState :=
  match st (encode endpoint params) with
  | none => (none, st)
  | some en => (if now - en.storedAt < en.ttl then some en.value else none, st)

/-- Modelled from the spec: the value returned by `get` — `some` a stored
live payload, or `none`, the explicit "not present" sentinel. -/
def get (st : CacheState) (now : Nat) (endpoint : String)
    (params : Option Params) : Option JsVal :=
  (getOp st now endpoint params).1

/-- Modelled from the spec: `clear` with params deletes only the entry for
that exact key; `clear` without params deletes every entry whose key was
derived from that endpoint identifier (the entry stores its originating
endpoint for this purpose). -/
def clear (st : CacheState) (endpoint : String) (params : Option Params) :
    CacheState :=
  match params with
  | some _ => fun k => if k = encode endpoint params then none else st k
  | none => fun k =>
      match st k with
      | some en => if en.endpoint = endpoint then none else some en
      | none => none

/-- Modelled from the spec: `clearAll` empties the store unconditionally. -/
def clearAll (_ : CacheState) : CacheState := fun _ => none

end apiCache

/-- The outcome of one endpoint-wrapper call: the value handed to the caller
(or the propagated transport error), the resulting cache state, and the list
of network requests issued, each as (URL, query parameters). -/
structure ApiResult where
  outcome : Except String JsVal
  state : apiCache.CacheState
  requests : List (String × Option Params)

/-- The HTTP transport (the `apiClient`): given a URL and query parameters it
returns the parsed body, or an error on non-2xx / network failure. -/
abbrev Transport := String → Option Params → Except String JsVal

/-- `getAllPlayers` from `endpoints.ts`: checks the cache for
`/api/v1/football/players/all-players` with `(page, limit)` parameters and
returns a hit without fetching; on a miss it fetches and stores the response
with a 5-minute TTL.  The source's `cached !== null` test is the check of the
cache's miss sentinel. -/
def getAllPlayers (net : Transport) (st : apiCache.CacheState) (now : Nat)
    (page : Nat := 1) (limit : Nat := 50) : ApiResult :=
  let endpoint := "/api/v1/football/players/all-players"
  let params : Params := [("page", toString page), ("limit", toString limit)]
  match apiCache.get st now endpoint (some params) with
  | some cached => ⟨.ok cached, st, []⟩
  | none =>
    match net endpoint (some params) with
    | .error e => ⟨.error e, st, [(endpoint, some params)]⟩
    | .ok data =>
        ⟨.ok data,
          apiCache.set st now endpoint data (some params) (5 * 60 * 1000),
          [(endpoint, some params)]⟩

/-- `getFixturesByLeague` from `endpoints.ts`: the cache check was removed
("Fetch from API (cache removed)") — it always issues the network request and
never reads or writes the cache. -/
def getFixturesByLeague (net : Transport) (st : apiCache.CacheState)
    (leagueId : String) (date : String) (page : Nat := 1)
    (limit : Nat := 100) : ApiResult :=
  let endpoint := "/api/v1/football/fixture/league"
  let params : Params :=
    [("leagueId", leagueId), ("date", date), ("page", toString page),
      ("limit", toString limit)]
  match net endpoint (some params) with
  | .error e => ⟨.error e, st, [(endpoint, some params)]⟩
  | .ok data => ⟨.ok data, st, [(endpoint, some params)]⟩

/-- `getLiveBasketballMatches` from `endpoints.ts`: the page and limit are
embedded in the endpoint string itself; the cache is consulted with that full
string and no parameter mapping, and on a miss the response is stored under
it with an empty parameter mapping and a 30-second TTL. -/
def getLiveBasketballMatches (net : Transport) (st : apiCache.CacheState)
    (now : Nat) (page : Nat := 1) (limit : Nat := 50) : ApiResult :=
  let endpoint :=
    "/api/v1/basketball/live?page=" ++ toString page ++ "&limit=" ++
      toString limit
  match apiCache.get st now endpoint none with
  | some cached => ⟨.ok cached, st, []⟩
  | none =>
    match net endpoint none with
    | .error e => ⟨.error e, st, [(endpoint, none)]⟩
    | .ok data =>
        ⟨.ok data, apiCache.set st now endpoint data (some []) (30 * 1000),
          [(endpoint, none)]⟩

/-- `getBasketballFixtures` from `endpoints.ts`: like
`getLiveBasketballMatches` but for `/api/v1/basketball/fixtures`, with a
2-minute TTL. -/
def getBasketballFixtures (net : Transport) (st : apiCache.CacheState)
    (now : Nat) (page : Nat := 1) (limit : Nat := 50) : ApiResult :=
  let endpoint :=
    "/api/v1/basketball/fixtures?page=" ++ toString page ++ "&limit=" ++
      toString limit
  match apiCache.get st now endpoint none with
  | some cached => ⟨.ok cached, st, []⟩
  | none =>
    match net endpoint none with
    | .error e => ⟨.error e, st, [(endpoint, none)]⟩
    | .ok data =>
        ⟨.ok data,
          apiCache.set st now endpoint data (some []) (2 * 60 * 1000),
          [(endpoint, none)]⟩

/-- `clearTeamsCache` from `endpoints.ts`: with both page and limit given it
clears the one `(page, limit)` variant of `/api/v1/football/teams/all-teams`;
otherwise it clears every variation of that endpoint. -/
def clearTeamsCache (st : apiCache.CacheState)
    (pageLimit : Option (Nat × Nat)) : apiCache.CacheState :=
  let endpoint := "/api/v1/football/teams/all-teams"
  match pageLimit with
  | some (page, limit) =>
      apiCache.clear st endpoint
        (some [("page", toString page), ("limit", toString limit)])
  | none => apiCache.clear st endpoint none

/-- `clearBasketballLiveCache` from `endpoints.ts`: clears the bare path
`/api/v1/basketball/live` with no params. -/
def clearBasketballLiveCache (st : apiCache.CacheState) : apiCache.CacheState :=
  apiCache.clear st "/api/v1/basketball/live" none

/-- `clearBasketballFixturesCache` from `endpoints.ts`: clears the bare path
`/api/v1/basketball/fixtures` with no params. -/
def clearBasketballFixturesCache (st : apiCache.CacheState) :
    apiCache.CacheState :=
  apiCache.clear st "/api/v1/basketball/fixtures" none

/-- `clearAllBasketballCache` from `endpoints.ts`: calls
`clearBasketballLiveCache` then `clearBasketballFixturesCache`. -/
def clearAllBasketballCache (st : apiCache.CacheState) : apiCache.CacheState :=
  clearBasketballFixturesCache (clearBasketballLiveCache st)

example : apiCache.encode "/x" (some [("page", "1"), ("limit", "50")]) =
    apiCache.encode "/x" (some [("limit", "50"), ("page", "1")]) := by decide

example : apiCache.encode "/x" (some [("a", "1")]) = "/x?a=1" := by decide

example : apiCache.encode "/x" (some [("a", "1&b=2")]) = "/x?a=1%ab%e2" := by
  decide

example :
    apiCache.get
      (apiCache.set apiCache.emptyCache 0 "/x" (JsVal.num 7)
        (some [("a", "1")]) 1000)
      5 "/x" (some [("a", "1")]) = some (JsVal.num 7) := by decide

namespace apiCache

theorem escChar_ne_nil (c : Char) : escChar c ≠ [] := by
  unfold escChar
  split_ifs <;> simp

theorem escape_eq_nil {s : List Char} (h : escape s = []) : s = [] := by
  cases s with
  | nil => rfl
  | cons c t =>
    exfalso
    have h2 : escChar c ++ escape t = [] := h
    exact escChar_ne_nil c (List.append_eq_nil.mp h2).1

theorem serParams_nil : serParams ([] : Params) = [] := rfl

theorem serParams_single (kv : String × String) : serParams [kv] = serPair kv :=
  rfl

theorem serParams_cons2 (kv1 kv2 : String × String) (r : Params) :
    serParams (kv1 :: kv2 :: r) = serPair kv1 ++ '&' :: serParams (kv2 :: r) :=
  rfl

theorem unescape_escape (s : List Char) : unescape (escape s) = s := by
  induction s with
  | nil => rfl
  | cons c t ih =>
    show unescape (escChar c ++ escape t) = c :: t
    by_cases h1 : c = '%'
    · subst h1
      simp [escChar, unescape, decodeTag, ih]
    · by_cases h2 : c = '&'
      · subst h2
        simp [escChar, unescape, decodeTag, ih]
      · by_cases h3 : c = '='
        · subst h3
          simp [escChar, unescape, decodeTag, ih]
        · have hesc : escChar c ++ escape t = c :: escape t := by
            simp [escChar, h1, h2, h3]
          rw [hesc]
          cases hsh : escape t with
          | nil =>
            rw [escape_eq_nil hsh]
            simp [unescape, h1]
          | cons d rest2 =>
            rw [← hsh]
            have : unescape (c :: escape t) = c :: unescape (escape t) := by
              rw [hsh]
              simp [unescape, h1]
            rw [this, ih]

theorem escape_inj {s1 s2 : List Char} (h : escape s1 = escape s2) : s1 = s2 := by
  have h2 := congrArg unescape h
  rwa [unescape_escape, unescape_escape] at h2

theorem amp_not_mem_escChar (c : Char) : '&' ∉ escChar c := by
  unfold escChar
  split_ifs with h1 h2 h3
  · decide
  · decide
  · decide
  · simp only [List.mem_singleton]
    exact fun hh => h2 hh.symm

theorem eqc_not_mem_escChar (c : Char) : '=' ∉ escChar c := by
  unfold escChar
  split_ifs with h1 h2 h3
  · decide
  · decide
  · decide
  · simp only [List.mem_singleton]
    exact fun hh => h3 hh.symm

theorem amp_not_mem_escape (s : List Char) : '&' ∉ escape s := by
  intro h
  rcases List.mem_flatMap.mp h with ⟨c, _, hc⟩
  exact amp_not_mem_escChar c hc

theorem eqc_not_mem_escape (s : List Char) : '=' ∉ escape s := by
  intro h
  rcases List.mem_flatMap.mp h with ⟨c, _, hc⟩
  exact eqc_not_mem_escChar c hc

theorem append_sep_inj {sep : Char} :
    ∀ {a c b d : List Char}, sep ∉ a → sep ∉ c →
      a ++ sep :: b = c ++ sep :: d → a = c ∧ b = d := by
  intro a
  induction a with
  | nil =>
    intro c b d _ hc h
    cases c with
    | nil =>
      simp only [List.nil_append, List.cons.injEq] at h
      exact ⟨rfl, h.2⟩
    | cons y c2 =>
      simp only [List.nil_append, List.cons_append, List.cons.injEq] at h
      exact absurd (by rw [h.1]; exact List.mem_cons_self _ _) hc
  | cons x a2 ih =>
    intro c b d ha hc h
    cases c with
    | nil =>
      simp only [List.cons_append, List.nil_append, List.cons.injEq] at h
      exact absurd (by rw [← h.1]; exact List.mem_cons_self _ _) ha
    | cons y c2 =>
      simp only [List.cons_append, List.cons.injEq] at h
      have ha2 : sep ∉ a2 := fun hh => ha (List.mem_cons_of_mem _ hh)
      have hc2 : sep ∉ c2 := fun hh => hc (List.mem_cons_of_mem _ hh)
      obtain ⟨hac, hbd⟩ := ih ha2 hc2 h.2
      exact ⟨by rw [h.1, hac], hbd⟩

theorem serPair_inj {kv1 kv2 : String × String} (h : serPair kv1 = serPair kv2) :
    kv1 = kv2 := by
  unfold serPair at h
  obtain ⟨hk, hv⟩ :=
    append_sep_inj (eqc_not_mem_escape _) (eqc_not_mem_escape _) h
  have hk2 : kv1.1 = kv2.1 := String.ext (escape_inj hk)
  have hv2 : kv1.2 = kv2.2 := String.ext (escape_inj hv)
  obtain ⟨k1, v1⟩ := kv1
  obtain ⟨k2, v2⟩ := kv2
  simp_all

theorem amp_not_mem_serPair (kv : String × String) : '&' ∉ serPair kv := by
  unfold serPair
  intro h
  rcases List.mem_append.mp h with h | h
  · exact amp_not_mem_escape _ h
  · rcases List.mem_cons.mp h with h | h
    · exact absurd h (by decide)
    · exact amp_not_mem_escape _ h

theorem serPair_ne_nil (kv : String × String) : serPair kv ≠ [] := by
  unfold serPair
  intro h
  have hm : ('=' : Char) ∈ escape kv.1.data ++ '=' :: escape kv.2.data :=
    List.mem_append.mpr (Or.inr (List.mem_cons_self _ _))
  rw [h] at hm
  exact absurd hm (List.not_mem_nil _)

theorem serParams_inj : ∀ (l1 l2 : Params),
    serParams l1 = serParams l2 → l1 = l2 := by
  intro l1
  induction l1 with
  | nil =>
    intro l2 h
    cases l2 with
    | nil => rfl
    | cons kv2 r2 =>
      cases r2 with
      | nil =>
        simp only [serParams_nil, serParams_single, serParams_cons2] at h
        exact absurd h.symm (serPair_ne_nil kv2)
      | cons kv3 r3 =>
        simp only [serParams_nil, serParams_single, serParams_cons2] at h
        exfalso
        have hm : ('&' : Char) ∈ serPair kv2 ++ '&' :: serParams (kv3 :: r3) :=
          List.mem_append.mpr (Or.inr (List.mem_cons_self _ _))
        rw [← h] at hm
        exact absurd hm (List.not_mem_nil _)
  | cons kv1 r1 ih =>
    intro l2 h
    cases l2 with
    | nil =>
      cases r1 with
      | nil =>
        simp only [serParams_nil, serParams_single, serParams_cons2] at h
        exact absurd h (serPair_ne_nil kv1)
      | cons kv1b r1b =>
        simp only [serParams_nil, serParams_single, serParams_cons2] at h
        exfalso
        have hm : ('&' : Char) ∈ serPair kv1 ++ '&' :: serParams (kv1b :: r1b) :=
          List.mem_append.mpr (Or.inr (List.mem_cons_self _ _))
        rw [h] at hm
        exact absurd hm (List.not_mem_nil _)
    | cons kv2 r2 =>
      cases r1 with
      | nil =>
        cases r2 with
        | nil =>
          simp only [serParams_nil, serParams_single, serParams_cons2] at h
          rw [serPair_inj h]
        | cons kv3 r3 =>
          simp only [serParams_nil, serParams_single, serParams_cons2] at h
          exfalso
          have hm : ('&' : Char) ∈ serPair kv1 := by
            rw [h]
            exact List.mem_append.mpr (Or.inr (List.mem_cons_self _ _))
          exact amp_not_mem_serPair _ hm
      | cons kv1b r1b =>
        cases r2 with
        | nil =>
          simp only [serParams_nil, serParams_single, serParams_cons2] at h
          exfalso
          have hm : ('&' : Char) ∈ serPair kv2 := by
            rw [← h]
            exact List.mem_append.mpr (Or.inr (List.mem_cons_self _ _))
          exact amp_not_mem_serPair _ hm
        | cons kv3 r3 =>
          simp only [serParams_nil, serParams_single, serParams_cons2] at h
          obtain ⟨hp, hr⟩ :=
            append_sep_inj (amp_not_mem_serPair _) (amp_not_mem_serPair _) h
          rw [serPair_inj hp, ih _ hr]

theorem lexLt_irrefl (l : List Char) : lexLt l l = false := by
  induction l with
  | nil => rfl
  | cons c t ih => simp [lexLt, Nat.lt_irrefl, ih]

theorem lexLt_trans : ∀ {a b c : List Char},
    lexLt a b = true → lexLt b c = true → lexLt a c = true := by
  intro a
  induction a with
  | nil =>
    intro b c hab hbc
    cases b with
    | nil => simp [lexLt] at hab
    | cons y bs =>
      cases c with
      | nil => simp [lexLt] at hbc
      | cons z cs => rfl
  | cons x as ih =>
    intro b c hab hbc
    cases b with
    | nil => simp [lexLt] at hab
    | cons y bs =>
      cases c with
      | nil => simp [lexLt] at hbc
      | cons z cs =>
        simp only [lexLt] at hab hbc ⊢
        by_cases h1 : x.toNat < y.toNat
        · by_cases h2 : y.toNat < z.toNat
          · simp [Nat.lt_trans h1 h2]
          · by_cases h3 : z.toNat < y.toNat
            · rw [if_neg h2, if_pos h3] at hbc
              exact absurd hbc (by simp)
            · have hxz : x.toNat < z.toNat := by omega
              simp [hxz]
        · by_cases h1b : y.toNat < x.toNat
          · rw [if_neg h1, if_pos h1b] at hab
            exact absurd hab (by simp)
          · rw [if_neg h1, if_neg h1b] at hab
            by_cases h2 : y.toNat < z.toNat
            · have hxz : x.toNat < z.toNat := by omega
              simp [hxz]
            · by_cases h3 : z.toNat < y.toNat
              · rw [if_neg h2, if_pos h3] at hbc
                exact absurd hbc (by simp)
              · rw [if_neg h2, if_neg h3] at hbc
                have hxz1 : ¬ x.toNat < z.toNat := by omega
                have hxz2 : ¬ z.toNat < x.toNat := by omega
                rw [if_neg hxz1, if_neg hxz2]
                exact ih hab hbc

theorem lexLt_eq_of_not : ∀ {a b : List Char},
    lexLt a b = false → lexLt b a = false → a = b := by
  intro a
  induction a with
  | nil =>
    intro b h1 h2
    cases b with
    | nil => rfl
    | cons y bs => simp [lexLt] at h1
  | cons x as ih =>
    intro b h1 h2
    cases b with
    | nil => simp [lexLt] at h2
    | cons y bs =>
      simp only [lexLt] at h1 h2
      by_cases c1 : x.toNat < y.toNat
      · rw [if_pos c1] at h1
        exact absurd h1 (by simp)
      · by_cases c2 : y.toNat < x.toNat
        · rw [if_pos c2] at h2
          exact absurd h2 (by simp)
        · rw [if_neg c1, if_neg c2] at h1
          rw [if_neg c2, if_neg c1] at h2
          have hnat : x.toNat = y.toNat := by omega
          have hchar : x = y := Char.eq_of_val_eq (UInt32.ext hnat)
          rw [hchar, ih h1 h2]

theorem keyLt_irrefl (s : String) : keyLt s s = false := lexLt_irrefl _

theorem keyLt_trans {a b c : String} (h1 : keyLt a b = true)
    (h2 : keyLt b c = true) : keyLt a c = true := lexLt_trans h1 h2

theorem keyLt_eq_of_not {a b : String} (h1 : keyLt a b = false)
    (h2 : keyLt b a = false) : a = b := String.ext (lexLt_eq_of_not h1 h2)

theorem keyLt_of_not_of_ne {a b : String} (h1 : keyLt a b = false)
    (h2 : a ≠ b) : keyLt b a = true := by
  cases h : keyLt b a with
  | false => exact absurd (keyLt_eq_of_not h1 h) h2
  | true => rfl

theorem insertPair_perm (kv : String × String) (l : Params) :
    (insertPair kv l).Perm (kv :: l) := by
  induction l with
  | nil => exact List.Perm.refl _
  | cons h t ih =>
    show (if keyLt kv.1 h.1 then kv :: h :: t else h :: insertPair kv t).Perm _
    cases hlt : keyLt kv.1 h.1 with
    | true =>
      rw [if_pos rfl]
    | false =>
      rw [if_neg Bool.false_ne_true]
      exact (ih.cons h).trans (List.Perm.swap kv h t)

theorem sortParams_perm (l : Params) : (sortParams l).Perm l := by
  induction l with
  | nil => exact List.Perm.refl _
  | cons kv t ih =>
    show (insertPair kv (sortParams t)).Perm (kv :: t)
    exact (insertPair_perm kv (sortParams t)).trans (ih.cons kv)

theorem lookupKey_perm {l1 l2 : Params} (h : l1.Perm l2) :
    ∀ (_ : (l1.map Prod.fst).Nodup) (k : String),
      lookupKey k l1 = lookupKey k l2 := by
  induction h with
  | nil => intro _ k; rfl
  | cons x h ih =>
    intro hn k
    obtain ⟨x1, x2⟩ := x
    simp only [lookupKey]
    have hn2 : (List.map Prod.fst _).Nodup := (List.nodup_cons.mp hn).2
    by_cases hx : x1 = k
    · simp [hx]
    · simp [hx, ih hn2 k]
  | swap x y l =>
    intro hn k
    obtain ⟨x1, x2⟩ := x
    obtain ⟨y1, y2⟩ := y
    have hyx : y1 ≠ x1 := by
      simp only [List.map_cons, List.nodup_cons, List.mem_cons] at hn
      exact fun hh => hn.1 (Or.inl hh)
    simp only [lookupKey]
    by_cases h1 : y1 = k
    · by_cases h2 : x1 = k
      · exact absurd (h1.trans h2.symm) hyx
      · simp [h1, h2]
    · by_cases h2 : x1 = k <;> simp [h1, h2]
  | trans h1 h2 ih1 ih2 =>
    intro hn k
    have hn2 := ((h1.map Prod.fst).nodup_iff).mp hn
    exact (ih1 hn k).trans (ih2 hn2 k)

theorem mem_of_lookupKey_some {k v : String} :
    ∀ {l : Params}, lookupKey k l = some v → k ∈ l.map Prod.fst := by
  intro l
  induction l with
  | nil => intro h; exact absurd h (by simp [lookupKey])
  | cons x t ih =>
    obtain ⟨x1, x2⟩ := x
    intro h
    simp only [lookupKey] at h
    by_cases hx : x1 = k
    · simp [hx]
    · rw [if_neg hx] at h
      exact List.mem_cons_of_mem _ (ih h)

theorem lookupKey_eq_none_of_not_mem {k : String} :
    ∀ {l : Params}, k ∉ l.map Prod.fst → lookupKey k l = none := by
  intro l
  induction l with
  | nil => intro _; rfl
  | cons x t ih =>
    obtain ⟨x1, x2⟩ := x
    intro h
    simp only [List.map_cons, List.mem_cons] at h
    push_neg at h
    simp only [lookupKey]
    rw [if_neg (fun hh => h.1 hh.symm)]
    exact ih h.2

theorem insertPair_sorted {kv : String × String} {l : Params}
    (hs : SortedKeys l) (hmem : kv.1 ∉ l.map Prod.fst) :
    SortedKeys (insertPair kv l) := by
  induction l with
  | nil => simp [insertPair, SortedKeys]
  | cons h t ih =>
    have hmem1 : kv.1 ≠ h.1 := by
      intro hh
      exact hmem (by simp [hh])
    have hmem2 : kv.1 ∉ t.map Prod.fst := by
      intro hh
      exact hmem (List.mem_cons_of_mem _ hh)
    obtain ⟨hhead, htail⟩ := List.pairwise_cons.mp hs
    show SortedKeys (if keyLt kv.1 h.1 then kv :: h :: t else h :: insertPair kv t)
    cases hlt : keyLt kv.1 h.1 with
    | true =>
      rw [if_pos rfl]
      refine List.Pairwise.cons ?_ hs
      intro b hb
      rcases List.mem_cons.mp hb with rfl | hbt
      · exact hlt
      · exact keyLt_trans hlt (hhead b hbt)
    | false =>
      rw [if_neg Bool.false_ne_true]
      have hgt : keyLt h.1 kv.1 = true := keyLt_of_not_of_ne hlt hmem1
      refine List.Pairwise.cons ?_ (ih htail hmem2)
      intro b hb
      have hb2 : b ∈ kv :: t := (insertPair_perm kv t).mem_iff.mp hb
      rcases List.mem_cons.mp hb2 with rfl | hbt
      · exact hgt
      · exact hhead b hbt

theorem sortParams_sorted : ∀ {l : Params},
    (l.map Prod.fst).Nodup → SortedKeys (sortParams l) := by
  intro l
  induction l with
  | nil => intro _; exact List.Pairwise.nil
  | cons kv t ih =>
    intro hn
    have hn1 : kv.1 ∉ t.map Prod.fst := (List.nodup_cons.mp hn).1
    have hn2 : (t.map Prod.fst).Nodup := (List.nodup_cons.mp hn).2
    show SortedKeys (insertPair kv (sortParams t))
    have hm : kv.1 ∉ (sortParams t).map Prod.fst := by
      intro hmem
      exact hn1 (((sortParams_perm t).map Prod.fst).mem_iff.mp hmem)
    exact insertPair_sorted (ih hn2) hm

theorem not_mem_fst_of_sorted {x : String × String} {t : Params}
    (hs : SortedKeys (x :: t)) : x.1 ∉ t.map Prod.fst := by
  intro hmem
  obtain ⟨b, hb, hbx⟩ := List.mem_map.mp hmem
  have := (List.pairwise_cons.mp hs).1 b hb
  rw [hbx] at this
  exact absurd this (by simp [keyLt_irrefl])

theorem sorted_lookup_ext : ∀ {l1 l2 : Params}, SortedKeys l1 → SortedKeys l2 →
    (∀ k, lookupKey k l1 = lookupKey k l2) → l1 = l2 := by
  intro l1
  induction l1 with
  | nil =>
    intro l2 _ _ hl
    cases l2 with
    | nil => rfl
    | cons y t2 =>
      obtain ⟨y1, y2⟩ := y
      have := hl y1
      simp [lookupKey] at this
  | cons x t1 ih =>
    intro l2 hs1 hs2 hl
    obtain ⟨x1, x2⟩ := x
    cases l2 with
    | nil =>
      have := hl x1
      simp [lookupKey] at this
    | cons y t2 =>
      obtain ⟨y1, y2⟩ := y
      obtain ⟨hx1, hp1⟩ := List.pairwise_cons.mp hs1
      obtain ⟨hy1, hp2⟩ := List.pairwise_cons.mp hs2
      have hxy : x1 = y1 := by
        by_contra hne
        have hyx : y1 ≠ x1 := fun hh => hne hh.symm
        have e1 : lookupKey x1 ((x1, x2) :: t1) = some x2 := by
          simp [lookupKey]
        have e2 : lookupKey x1 ((y1, y2) :: t2) = some x2 :=
          (hl x1).symm.trans e1
        simp only [lookupKey, if_neg hyx] at e2
        have hmem2 : x1 ∈ t2.map Prod.fst := mem_of_lookupKey_some e2
        obtain ⟨b, hb, hbx⟩ := List.mem_map.mp hmem2
        have hlt1 : keyLt y1 x1 = true := by
          have := hy1 b hb
          rwa [hbx] at this
        have e3 : lookupKey y1 ((y1, y2) :: t2) = some y2 := by
          simp [lookupKey]
        have e4 : lookupKey y1 ((x1, x2) :: t1) = some y2 :=
          (hl y1).trans e3
        simp only [lookupKey, if_neg hne] at e4
        have hmem1 : y1 ∈ t1.map Prod.fst := mem_of_lookupKey_some e4
        obtain ⟨c, hc, hcx⟩ := List.mem_map.mp hmem1
        have hlt2 : keyLt x1 y1 = true := by
          have := hx1 c hc
          rwa [hcx] at this
        have : keyLt x1 x1 = true := keyLt_trans hlt2 hlt1
        rw [keyLt_irrefl] at this
        exact absurd this (by simp)
      subst hxy
      have hv : x2 = y2 := by
        have e1 : lookupKey x1 ((x1, x2) :: t1) = some x2 := by
          simp [lookupKey]
        have e2 : lookupKey x1 ((x1, y2) :: t2) = some y2 := by
          simp [lookupKey]
        have := (hl x1).symm.trans e1
        rw [e2] at this
        exact (Option.some.inj this).symm
      subst hv
      have hnm1 : x1 ∉ t1.map Prod.fst := not_mem_fst_of_sorted hs1
      have hnm2 : x1 ∉ t2.map Prod.fst := not_mem_fst_of_sorted hs2
      have htl : ∀ k, lookupKey k t1 = lookupKey k t2 := by
        intro k
        by_cases hk : k = x1
        · subst hk
          rw [lookupKey_eq_none_of_not_mem hnm1,
            lookupKey_eq_none_of_not_mem hnm2]
        · have := hl k
          have hx1k : x1 ≠ k := fun hh => hk hh.symm
          simpa only [lookupKey, if_neg hx1k] using this
      rw [ih hp1 hp2 htl]

theorem sortParams_eq_of_equiv {p1 p2 : Params}
    (h1 : (p1.map Prod.fst).Nodup) (h2 : (p2.map Prod.fst).Nodup)
    (he : ∀ k, lookupKey k p1 = lookupKey k p2) :
    sortParams p1 = sortParams p2 := by
  apply sorted_lookup_ext (sortParams_sorted h1) (sortParams_sorted h2)
  intro k
  have hn1 : ((sortParams p1).map Prod.fst).Nodup :=
    (((sortParams_perm p1).map Prod.fst).nodup_iff).mpr h1
  have hn2 : ((sortParams p2).map Prod.fst).Nodup :=
    (((sortParams_perm p2).map Prod.fst).nodup_iff).mpr h2
  rw [lookupKey_perm (sortParams_perm p1) hn1 k,
    lookupKey_perm (sortParams_perm p2) hn2 k]
  exact he k

theorem lookupKey_sortParams {p : Params} (hn : (p.map Prod.fst).Nodup)
    (k : String) : lookupKey k (sortParams p) = lookupKey k p := by
  have hns : ((sortParams p).map Prod.fst).Nodup :=
    (((sortParams_perm p).map Prod.fst).nodup_iff).mpr hn
  exact lookupKey_perm (sortParams_perm p) hns k

theorem encode_eq_encodeL (e : String) (p : Option Params) :
    encode e p = encodeL e (p.getD []) := by
  cases p with
  | none => rfl
  | some ps => cases ps <;> rfl

theorem encodeL_ne_of_nonempty (e : String) (kv : String × String)
    (r : Params) : encodeL e (kv :: r) ≠ e := by
  intro h
  have h2 := congrArg String.length h
  simp only [encodeL, String.length_append] at h2
  have h3 : String.length "?" = 1 := rfl
  omega

theorem encodeL_eq_of_equiv (e : String) {ps1 ps2 : Params}
    (h1 : (ps1.map Prod.fst).Nodup) (h2 : (ps2.map Prod.fst).Nodup)
    (he : ∀ k, lookupKey k ps1 = lookupKey k ps2) :
    encodeL e ps1 = encodeL e ps2 := by
  cases ps1 with
  | nil =>
    cases ps2 with
    | nil => rfl
    | cons kv r =>
      exfalso
      have := he kv.1
      obtain ⟨k1, v1⟩ := kv
      simp [lookupKey] at this
  | cons kv1 r1 =>
    cases ps2 with
    | nil =>
      exfalso
      have := he kv1.1
      obtain ⟨k1, v1⟩ := kv1
      simp [lookupKey] at this
    | cons kv2 r2 =>
      show _ ++ "?" ++ _ = _ ++ "?" ++ _
      rw [sortParams_eq_of_equiv h1 h2 he]

theorem encodeL_inj_params (e : String) {ps1 ps2 : Params}
    (h1 : (ps1.map Prod.fst).Nodup) (h2 : (ps2.map Prod.fst).Nodup)
    (h : encodeL e ps1 = encodeL e ps2) :
    ∀ k, lookupKey k ps1 = lookupKey k ps2 := by
  cases ps1 with
  | nil =>
    cases ps2 with
    | nil => intro k; rfl
    | cons kv r =>
      exact absurd h.symm (encodeL_ne_of_nonempty e kv r)
  | cons kv1 r1 =>
    cases ps2 with
    | nil => exact absurd h (encodeL_ne_of_nonempty e kv1 r1)
    | cons kv2 r2 =>
      have h2s : (e ++ "?" ++ String.mk (serParams (sortParams (kv1 :: r1)))).data =
          (e ++ "?" ++ String.mk (serParams (sortParams (kv2 :: r2)))).data :=
        congrArg String.data h
      simp only [String.data_append] at h2s
      have h3 : serParams (sortParams (kv1 :: r1)) =
          serParams (sortParams (kv2 :: r2)) :=
        List.append_cancel_left h2s
      have h4 := serParams_inj _ _ h3
      intro k
      rw [← lookupKey_sortParams h1 k, ← lookupKey_sortParams h2 k, h4]

theorem encodeL_inj_endpoint {e1 e2 : String} (ps : Params)
    (h : encodeL e1 ps = encodeL e2 ps) : e1 = e2 := by
  cases ps with
  | nil => exact h
  | cons kv r =>
    have h2 : (e1 ++ "?" ++ String.mk (serParams (sortParams (kv :: r)))).data =
        (e2 ++ "?" ++ String.mk (serParams (sortParams (kv :: r)))).data :=
      congrArg String.data h
    simp only [String.data_append, List.append_assoc] at h2
    exact String.ext (List.append_cancel_right h2)

theorem encode_eq_of_mappingEquiv (e : String) {p1 p2 : Option Params}
    (h1 : ((p1.getD []).map Prod.fst).Nodup)
    (h2 : ((p2.getD []).map Prod.fst).Nodup) (he : mappingEquiv p1 p2) :
    encode e p1 = encode e p2 := by
  rw [encode_eq_encodeL, encode_eq_encodeL]
  exact encodeL_eq_of_equiv e h1 h2 he

theorem encode_ne_of_not_equiv (e : String) {p1 p2 : Option Params}
    (h1 : ((p1.getD []).map Prod.fst).Nodup)
    (h2 : ((p2.getD []).map Prod.fst).Nodup) (hne : ¬ mappingEquiv p1 p2) :
    encode e p1 ≠ encode e p2 := by
  intro h
  rw [encode_eq_encodeL, encode_eq_encodeL] at h
  exact hne (encodeL_inj_params e h1 h2 h)

theorem encode_ne_of_endpoint_ne {e1 e2 : String} (p : Option Params)
    (h : e1 ≠ e2) : encode e1 p ≠ encode e2 p := by
  intro hh
  rw [encode_eq_encodeL, encode_eq_encodeL] at hh
  exact h (encodeL_inj_endpoint _ hh)

theorem getOp_state (st : CacheState) (now : Nat) (e : String)
    (p : Option Params) : (getOp st now e p).2 = st := by
  unfold getOp
  cases st (encode e p) <;> rfl

theorem set_apply_self (st : CacheState) (now : Nat) (e : String) (v : JsVal)
    (p : Option Params) (ttl : Nat) :
    set st now e v p ttl (encode e p) =
      some ⟨e, v, now, if ttl = 0 then defaultTTL else ttl⟩ := by
  simp [set]

theorem set_apply_other {st : CacheState} {now : Nat} {e : String} {v : JsVal}
    {p : Option Params} {ttl : Nat} {k : String} (h : k ≠ encode e p) :
    set st now e v p ttl k = st k := by
  simp [set, h]

theorem get_set_live {st : CacheState} {now t : Nat} {e : String} {v : JsVal}
    {p : Option Params} {ttl : Nat} (h : now - t < ttl) :
    get (set st t e v p ttl) now e p = some v := by
  have httl : ¬ ttl = 0 := by omega
  simp [get, getOp, set, httl, h]

theorem get_set_dead {st : CacheState} {now t : Nat} {e : String} {v : JsVal}
    {p : Option Params} {ttl : Nat} (h1 : ttl ≤ now - t) (h2 : ttl ≠ 0) :
    get (set st t e v p ttl) now e p = none := by
  simp [get, getOp, set, h2, Nat.not_lt.mpr h1]

theorem get_set_other {st : CacheState} {t now : Nat} {e : String} {v : JsVal}
    {p : Option Params} {ttl : Nat} {e2 : String} {p2 : Option Params}
    (h : encode e2 p2 ≠ encode e p) :
    get (set st t e v p ttl) now e2 p2 = get st now e2 p2 := by
  simp only [get, getOp, set, if_neg h]
  cases st (encode e2 p2) <;> rfl

theorem get_clearAll (st : CacheState) (now : Nat) (e : String)
    (p : Option Params) : get (clearAll st) now e p = none := rfl

theorem clear_some_at_key (st : CacheState) (e : String) (ps : Params) :
    clear st e (some ps) (encode e (some ps)) = none := by
  simp [clear]

theorem clear_some_apply_other {st : CacheState} {e : String} {ps : Params}
    {k : String} (h : k ≠ encode e (some ps)) :
    clear st e (some ps) k = st k := by
  simp [clear, h]

theorem clear_none_of_endpoint {st : CacheState} {e k : String}
    {en : CacheEntry} (h : st k = some en) (he : en.endpoint = e) :
    clear st e none k = none := by
  simp [clear, h, he]

theorem clear_none_frame {st : CacheState} {e k : String} {en : CacheEntry}
    (h : st k = some en) (he : en.endpoint ≠ e) :
    clear st e none k = some en := by
  simp [clear, h, he]

theorem clear_none_none {st : CacheState} {e k : String} (h : st k = none) :
    clear st e none k = none := by
  simp [clear, h]

end apiCache

/-- C1: for every endpoint and parameter mapping, `get` returns either a
cached value or the explicit miss sentinel `none`, which is distinguishable
from every legitimately cached payload; in particular the miss marker is not
the `null` payload, so after `set(e, null, p, ttl)` a `get(e, p)` within the
TTL is a hit returning the stored `null`, never a miss. -/
theorem C1_miss_sentinel_distinguishable (st : apiCache.CacheState)
    (t now : Nat) (e : String) (p : Option Params) (ttl : Nat)
    (h : now - t < ttl) :
    (∀ st2 : apiCache.CacheState, apiCache.get st2 now e p = none ∨
      ∃ en, st2 (apiCache.encode e p) = some en ∧
        apiCache.get st2 now e p = some en.value) ∧
    (∀ v : JsVal, (some v : Option JsVal) ≠ none) ∧
    apiCache.get (apiCache.set st t e JsVal.null p ttl) now e p =
      some JsVal.null := by
  refine ⟨?_, by simp, apiCache.get_set_live h⟩
  intro st2
  unfold apiCache.get apiCache.getOp
  cases hs : st2 (apiCache.encode e p) with
  | none => exact Or.inl rfl
  | some en =>
    by_cases hl : now - en.storedAt < en.ttl
    · exact Or.inr ⟨en, rfl, by simp [hl]⟩
    · exact Or.inl (by simp [hl])

/-- Witness for C1 at a concrete input: a stored `null` is a hit. -/
theorem C1_miss_sentinel_distinguishable_witness :
    apiCache.get
      (apiCache.set apiCache.emptyCache 0 "/x" JsVal.null none 10)
      5 "/x" none = some JsVal.null :=
  (C1_miss_sentinel_distinguishable apiCache.emptyCache 0 5 "/x" none 10
    (by decide)).2.2

/-- C4: an entry is live iff `now - storedAt < ttl`; after `clearAll`, `get`
is a miss for every endpoint and parameter mapping; after `set(e,v,p,ttl)`,
`get(e,p)` returns `v` at every instant strictly before the ttl has elapsed
(including immediately) and is a miss once the ttl or more has elapsed. -/
theorem C4_liveness_and_expiry (st : apiCache.CacheState) (e : String)
    (p : Option Params) (v : JsVal) (ttl t0 t t2 : Nat)
    (hlive : t - t0 < ttl) (hdead : ttl ≤ t2 - t0) :
    (∀ now e2 p2, apiCache.get (apiCache.clearAll st) now e2 p2 = none) ∧
    apiCache.get (apiCache.set st t0 e v p ttl) t e p = some v ∧
    apiCache.get (apiCache.set st t0 e v p ttl) t2 e p = none :=
  ⟨fun now e2 p2 => apiCache.get_clearAll st now e2 p2,
    apiCache.get_set_live hlive,
    apiCache.get_set_dead hdead (by omega)⟩

/-- Witness for C4: live at 9 of 10 ms, dead at 10 ms, miss after clearAll. -/
theorem C4_liveness_and_expiry_witness :
    apiCache.get
      (apiCache.set apiCache.emptyCache 0 "/x" (JsVal.num 1) none 10)
      9 "/x" none = some (JsVal.num 1) ∧
    apiCache.get
      (apiCache.set apiCache.emptyCache 0 "/x" (JsVal.num 1) none 10)
      10 "/x" none = none ∧
    apiCache.get (apiCache.clearAll apiCache.emptyCache) 4 "/x" none = none :=
  have h := C4_liveness_and_expiry apiCache.emptyCache "/x" none (JsVal.num 1)
    10 0 9 10 (by decide) (by decide)
  ⟨h.2.1, h.2.2, h.1 4 "/x" none⟩

/-- C5: `set` is last-write-wins — a second `set` for the same key
unconditionally overwrites the entry, resetting `storedAt` to the second
write time, so a live `get` returns the second value and never the first. -/
theorem C5_last_write_wins (st : apiCache.CacheState) (e : String)
    (p : Option Params) (v1 v2 : JsVal) (ttl t1 t2 now : Nat)
    (h : now - t2 < ttl) :
    apiCache.get
      (apiCache.set (apiCache.set st t1 e v1 p ttl) t2 e v2 p ttl)
      now e p = some v2 ∧
    (apiCache.set (apiCache.set st t1 e v1 p ttl) t2 e v2 p ttl)
      (apiCache.encode e p) = some ⟨e, v2, t2, ttl⟩ ∧
    (v1 ≠ v2 →
      apiCache.get
        (apiCache.set (apiCache.set st t1 e v1 p ttl) t2 e v2 p ttl)
        now e p ≠ some v1) := by
  have httl : ttl ≠ 0 := by omega
  refine ⟨apiCache.get_set_live h, ?_, ?_⟩
  · rw [apiCache.set_apply_self]
    simp [httl]
  · intro hne hcontra
    rw [apiCache.get_set_live h] at hcontra
    exact hne (Option.some.inj hcontra).symm

/-- Witness for C5 at a concrete input. -/
theorem C5_last_write_wins_witness :
    apiCache.get
      (apiCache.set
        (apiCache.set apiCache.emptyCache 0 "/x" (JsVal.num 1) none 10)
        3 "/x" (JsVal.num 2) none 10)
      5 "/x" none = some (JsVal.num 2) ∧
    apiCache.get
      (apiCache.set
        (apiCache.set apiCache.emptyCache 0 "/x" (JsVal.num 1) none 10)
        3 "/x" (JsVal.num 2) none 10)
      5 "/x" none ≠ some (JsVal.num 1) :=
  have h := C5_last_write_wins apiCache.emptyCache "/x" none (JsVal.num 1)
    (JsVal.num 2) 10 0 3 5 (by decide)
  ⟨h.1, h.2.2 (by decide)⟩

/-- C10: `get` is a total, read-only query — it returns the miss sentinel
(never raises) on an absent key, it never modifies the Entry Store, and a
dead (expired) entry is treated as a miss but is not deleted by `get`. -/
theorem C10_get_total_read_only (st : apiCache.CacheState) (now : Nat)
    (e : String) (p : Option Params) (en : apiCache.CacheEntry) :
    (apiCache.getOp st now e p).2 = st ∧
    (st (apiCache.encode e p) = none → apiCache.get st now e p = none) ∧
    (st (apiCache.encode e p) = some en → en.ttl ≤ now - en.storedAt →
      apiCache.get st now e p = none ∧
      (apiCache.getOp st now e p).2 (apiCache.encode e p) = some en) := by
  refine ⟨apiCache.getOp_state st now e p, ?_, ?_⟩
  · intro h
    simp [apiCache.get, apiCache.getOp, h]
  · intro h hd
    constructor
    · simp [apiCache.get, apiCache.getOp, h, Nat.not_lt.mpr hd]
    · rw [apiCache.getOp_state]
      exact h

/-- Witness for C10: a dead entry is a miss yet still physically present. -/
theorem C10_get_total_read_only_witness :
    apiCache.get
      (apiCache.set apiCache.emptyCache 0 "/x" (JsVal.num 1) none 10)
      10 "/x" none = none ∧
    (apiCache.getOp
      (apiCache.set apiCache.emptyCache 0 "/x" (JsVal.num 1) none 10)
      10 "/x" none).2 (apiCache.encode "/x" none) =
      some ⟨"/x", JsVal.num 1, 0, 10⟩ :=
  (C10_get_total_read_only
    (apiCache.set apiCache.emptyCache 0 "/x" (JsVal.num 1) none 10)
    10 "/x" none ⟨"/x", JsVal.num 1, 0, 10⟩).2.2 (by decide) (by decide)

/-- C2: key encoding is deterministic and insertion-order independent — equal
mappings give equal keys; absent parameters are equivalent to an empty
mapping, the key then being the endpoint identifier alone; and the spec's
end-to-end scenario holds: `set("/x", {a:1}, {page:1,limit:50}, 5*60*1000)`
followed by `get("/x", {limit:50,page:1})` returns `{a:1}`. -/
theorem C2_key_encoding_canonical (e : String) (p1 p2 : Params)
    (h1 : (p1.map Prod.fst).Nodup) (h2 : (p2.map Prod.fst).Nodup)
    (he : apiCache.mappingEquiv (some p1) (some p2)) :
    apiCache.encode e (some p1) = apiCache.encode e (some p2) ∧
    apiCache.encode e none = e ∧
    apiCache.encode e (some []) = e ∧
    apiCache.get
      (apiCache.set apiCache.emptyCache 0 "/x"
        (JsVal.obj (JsFields.fcons "a" (JsVal.num 1) JsFields.fnil))
        (some [("page", "1"), ("limit", "50")]) (5 * 60 * 1000))
      0 "/x" (some [("limit", "50"), ("page", "1")]) =
      some (JsVal.obj (JsFields.fcons "a" (JsVal.num 1) JsFields.fnil)) :=
  ⟨apiCache.encode_eq_of_mappingEquiv e h1 h2 he, rfl, rfl, by decide⟩

/-- Witness for C2 with a concrete reordered pair of mappings. -/
theorem C2_key_encoding_canonical_witness :
    apiCache.encode "/x" (some [("page", "1"), ("limit", "50")]) =
      apiCache.encode "/x" (some [("limit", "50"), ("page", "1")]) :=
  (C2_key_encoding_canonical "/x" [("page", "1"), ("limit", "50")]
    [("limit", "50"), ("page", "1")] (by decide) (by decide)
    (by
      intro k
      simp only [Option.getD, apiCache.lookupKey]
      by_cases hp : "page" = k
      · have hl : ¬("limit" = k) := by
          rw [← hp]
          decide
        simp [hp, hl]
      · by_cases hl : "limit" = k
        · simp [hp, hl]
        · simp [hp, hl])).1

/-- C8: key isolation — parameter mappings that differ in at least one key or
value give different keys for the same endpoint, and distinct endpoint
identifiers give different keys for the same parameter mapping. -/
theorem C8_key_isolation (e e1 e2 : String) (p p1 p2 : Option Params)
    (h1 : ((p1.getD []).map Prod.fst).Nodup)
    (h2 : ((p2.getD []).map Prod.fst).Nodup)
    (hne : ¬ apiCache.mappingEquiv p1 p2) (he : e1 ≠ e2) :
    apiCache.encode e p1 ≠ apiCache.encode e p2 ∧
    apiCache.encode e1 p ≠ apiCache.encode e2 p :=
  ⟨apiCache.encode_ne_of_not_equiv e h1 h2 hne,
    apiCache.encode_ne_of_endpoint_ne p he⟩

/-- Witness for C8 with concrete differing mappings and endpoints. -/
theorem C8_key_isolation_witness :
    apiCache.encode "/x" (some [("a", "1")]) ≠
      apiCache.encode "/x" (some [("a", "2")]) ∧
    apiCache.encode "/a" none ≠ apiCache.encode "/b" none :=
  C8_key_isolation "/x" "/a" "/b" none (some [("a", "1")]) (some [("a", "2")])
    (by decide) (by decide)
    (by
      intro h
      have h2 := h "a"
      simp [apiCache.lookupKey] at h2)
    (by decide)

/-- C9: when `getAllPlayers` misses the cache and the network fetch fails,
the error propagates and the cache is left untouched — no entry is created
or modified for that key. -/
theorem C9_no_negative_caching (net : Transport) (st : apiCache.CacheState)
    (now page limit : Nat) (err : String)
    (hmiss : apiCache.get st now "/api/v1/football/players/all-players"
      (some [("page", toString page), ("limit", toString limit)]) = none)
    (hnet : net "/api/v1/football/players/all-players"
      (some [("page", toString page), ("limit", toString limit)]) =
        Except.error err) :
    getAllPlayers net st now page limit =
      ⟨Except.error err, st,
        [("/api/v1/football/players/all-players",
          some [("page", toString page), ("limit", toString limit)])]⟩ := by
  simp [getAllPlayers, hmiss, hnet]

/-- Witness for C9: a failing transport leaves the empty cache empty. -/
theorem C9_no_negative_caching_witness :
    getAllPlayers (fun _ _ => Except.error "network down")
      apiCache.emptyCache 0 1 50 =
      ⟨Except.error "network down", apiCache.emptyCache,
        [("/api/v1/football/players/all-players",
          some [("page", toString 1), ("limit", toString 50)])]⟩ :=
  C9_no_negative_caching (fun _ _ => Except.error "network down")
    apiCache.emptyCache 0 1 50 "network down" (by decide) rfl

/-- C3 (counterexample): not every endpoint wrapper consults the cache —
`getFixturesByLeague` ("cache removed" in the source) issues the network
request and returns the fetched value even when a live cache entry exists
for its endpoint and parameters. -/
theorem C3_counterexample :
    apiCache.get
      (apiCache.set apiCache.emptyCache 0 "/api/v1/football/fixture/league"
        (JsVal.str "cached")
        (some [("leagueId", "39"), ("date", "2024-01-01"), ("page", "1"),
          ("limit", "100")]) 1000)
      5 "/api/v1/football/fixture/league"
      (some [("leagueId", "39"), ("date", "2024-01-01"), ("page", "1"),
        ("limit", "100")]) = some (JsVal.str "cached") ∧
    (getFixturesByLeague (fun _ _ => Except.ok (JsVal.str "fresh"))
      (apiCache.set apiCache.emptyCache 0 "/api/v1/football/fixture/league"
        (JsVal.str "cached")
        (some [("leagueId", "39"), ("date", "2024-01-01"), ("page", "1"),
          ("limit", "100")]) 1000)
      "39" "2024-01-01" 1 100).outcome = Except.ok (JsVal.str "fresh") ∧
    (getFixturesByLeague (fun _ _ => Except.ok (JsVal.str "fresh"))
      (apiCache.set apiCache.emptyCache 0 "/api/v1/football/fixture/league"
        (JsVal.str "cached")
        (some [("leagueId", "39"), ("date", "2024-01-01"), ("page", "1"),
          ("limit", "100")]) 1000)
      "39" "2024-01-01" 1 100).requests ≠ [] :=
  ⟨by decide, rfl, by decide⟩

/-- C3 (amended): the cache-consulting wrappers (`getAllPlayers`,
`getLiveBasketballMatches`, ...) first perform a cache get, return a hit
without touching the network, and on a miss fetch and store the result with
an explicit per-entry TTL; but not every wrapper consults the cache —
`getFixturesByLeague` never reads or writes it and always issues the
request. -/
theorem C3_cache_consulting_wrappers (net : Transport)
    (st st2 : apiCache.CacheState) (now page limit : Nat) (v data : JsVal)
    (lid date : String) :
    (apiCache.get st now "/api/v1/football/players/all-players"
        (some [("page", toString page), ("limit", toString limit)]) =
        some v →
      getAllPlayers net st now page limit = ⟨Except.ok v, st, []⟩) ∧
    (apiCache.get st now "/api/v1/football/players/all-players"
        (some [("page", toString page), ("limit", toString limit)]) = none →
      net "/api/v1/football/players/all-players"
        (some [("page", toString page), ("limit", toString limit)]) =
        Except.ok data →
      getAllPlayers net st now page limit =
        ⟨Except.ok data,
          apiCache.set st now "/api/v1/football/players/all-players" data
            (some [("page", toString page), ("limit", toString limit)])
            (5 * 60 * 1000),
          [("/api/v1/football/players/all-players",
            some [("page", toString page), ("limit", toString limit)])]⟩) ∧
    (apiCache.get st now
        ("/api/v1/basketball/live?page=" ++ toString page ++ "&limit=" ++
          toString limit) none = some v →
      getLiveBasketballMatches net st now page limit =
        ⟨Except.ok v, st, []⟩) ∧
    (apiCache.get st now
        ("/api/v1/basketball/live?page=" ++ toString page ++ "&limit=" ++
          toString limit) none = none →
      net ("/api/v1/basketball/live?page=" ++ toString page ++ "&limit=" ++
        toString limit) none = Except.ok data →
      getLiveBasketballMatches net st now page limit =
        ⟨Except.ok data,
          apiCache.set st now
            ("/api/v1/basketball/live?page=" ++ toString page ++
              "&limit=" ++ toString limit) data (some []) (30 * 1000),
          [(("/api/v1/basketball/live?page=" ++ toString page ++
            "&limit=" ++ toString limit), none)]⟩) ∧
    ((getFixturesByLeague net st lid date page limit).state = st ∧
      (getFixturesByLeague net st lid date page limit).outcome =
        (getFixturesByLeague net st2 lid date page limit).outcome ∧
      (getFixturesByLeague net st lid date page limit).requests =
        [("/api/v1/football/fixture/league",
          some [("leagueId", lid), ("date", date), ("page", toString page),
            ("limit", toString limit)])]) := by
  refine ⟨?_, ?_, ?_, ?_, ?_, ?_, ?_⟩
  · intro hhit
    simp [getAllPlayers, hhit]
  · intro hmiss hnet
    simp [getAllPlayers, hmiss, hnet]
  · intro hhit
    simp [getLiveBasketballMatches, hhit]
  · intro hmiss hnet
    simp [getLiveBasketballMatches, hmiss, hnet]
  · cases hn : net "/api/v1/football/fixture/league"
      (some [("leagueId", lid), ("date", date), ("page", toString page),
        ("limit", toString limit)]) <;>
      simp [getFixturesByLeague, hn]
  · cases hn : net "/api/v1/football/fixture/league"
      (some [("leagueId", lid), ("date", date), ("page", toString page),
        ("limit", toString limit)]) <;>
      simp [getFixturesByLeague, hn]
  · cases hn : net "/api/v1/football/fixture/league"
      (some [("leagueId", lid), ("date", date), ("page", toString page),
        ("limit", toString limit)]) <;>
      simp [getFixturesByLeague, hn]

/-- Witness for the amended C3: a concrete cache hit is returned with no
network request. -/
theorem C3_cache_consulting_wrappers_witness :
    getAllPlayers (fun _ _ => Except.ok JsVal.null)
      (apiCache.set apiCache.emptyCache 0
        "/api/v1/football/players/all-players" (JsVal.str "cached")
        (some [("page", toString 1), ("limit", toString 50)]) 1000)
      5 1 50 =
      ⟨Except.ok (JsVal.str "cached"),
        apiCache.set apiCache.emptyCache 0
          "/api/v1/football/players/all-players" (JsVal.str "cached")
          (some [("page", toString 1), ("limit", toString 50)]) 1000, []⟩ :=
  (C3_cache_consulting_wrappers (fun _ _ => Except.ok JsVal.null)
    (apiCache.set apiCache.emptyCache 0
      "/api/v1/football/players/all-players" (JsVal.str "cached")
      (some [("page", toString 1), ("limit", toString 50)]) 1000)
    apiCache.emptyCache 5 1 50 (JsVal.str "cached") JsVal.null "x"
    "2024-01-01").1 (by decide)

namespace apiCache

theorem get_clear_some_other {st : CacheState} {e1 : String} {ps : Params}
    {e2 : String} {p2 : Option Params} {now : Nat}
    (h : encode e2 p2 ≠ encode e1 (some ps)) :
    get (clear st e1 (some ps)) now e2 p2 = get st now e2 p2 := by
  simp only [get, getOp, clear_some_apply_other h]
  cases st (encode e2 p2) <;> rfl

end apiCache

/-- C6 (counterexample): `set` on one endpoint can affect an entry of a
distinct endpoint, because with empty parameters the cache key is the
endpoint string itself — storing under endpoint `"/x?a=1"` and then calling
`set` for endpoint `"/x"` with params `{a:1}` overwrites that entry. -/
theorem C6_counterexample :
    apiCache.get
      (apiCache.set apiCache.emptyCache 0 "/x?a=1" (JsVal.num 7) none 1000)
      5 "/x?a=1" none = some (JsVal.num 7) ∧
    apiCache.get
      (apiCache.set
        (apiCache.set apiCache.emptyCache 0 "/x?a=1" (JsVal.num 7) none 1000)
        0 "/x" (JsVal.num 8) (some [("a", "1")]) 1000)
      5 "/x?a=1" none = some (JsVal.num 8) :=
  ⟨by decide, by decide⟩

/-- C6 (amended): `clear(e, p)` deletes only the entry for that exact key,
leaving every other entry (including other parameter variants of `e`)
unchanged; `clear(e)` deletes every entry stored under endpoint `e`
regardless of parameters; `clear(e1)` without params never affects entries
of a distinct endpoint `e2`; and `set` or `clear(e1, p1)` never affects an
entry of a distinct endpoint `e2` whose cache key differs from the derived
key — the proviso full generality lacks, since an endpoint string may
coincide with another endpoint's derived key (see the counterexample). -/
theorem C6_scoped_clear_non_interference (st : apiCache.CacheState)
    (now t : Nat) (e e1 e2 : String) (ps : Params) (p p1 p2 : Option Params)
    (v : JsVal) (ttl : Nat) (en : apiCache.CacheEntry) (k : String) :
    apiCache.clear st e (some ps) (apiCache.encode e (some ps)) = none ∧
    (k ≠ apiCache.encode e (some ps) → apiCache.clear st e (some ps) k = st k) ∧
    (st k = some en → en.endpoint = e → apiCache.clear st e none k = none) ∧
    (st k = some en → en.endpoint ≠ e → apiCache.clear st e none k = some en) ∧
    apiCache.get (apiCache.clear (apiCache.set st t e v p ttl) e none)
      now e p = none ∧
    (e1 ≠ e2 →
      apiCache.get (apiCache.clear (apiCache.set st t e2 v p2 ttl) e1 none)
        now e2 p2 =
        apiCache.get (apiCache.set st t e2 v p2 ttl) now e2 p2) ∧
    (apiCache.encode e2 p2 ≠ apiCache.encode e1 p1 →
      apiCache.get (apiCache.set st t e1 v p1 ttl) now e2 p2 =
        apiCache.get st now e2 p2) ∧
    (apiCache.encode e2 p2 ≠ apiCache.encode e1 (some ps) →
      apiCache.get (apiCache.clear st e1 (some ps)) now e2 p2 =
        apiCache.get st now e2 p2) := by
  refine ⟨apiCache.clear_some_at_key st e ps, ?_, ?_, ?_, ?_, ?_, ?_, ?_⟩
  · intro h
    exact apiCache.clear_some_apply_other h
  · intro h he
    exact apiCache.clear_none_of_endpoint h he
  · intro h he
    exact apiCache.clear_none_frame h he
  · have hk : apiCache.clear (apiCache.set st t e v p ttl) e none
        (apiCache.encode e p) = none :=
      apiCache.clear_none_of_endpoint (apiCache.set_apply_self st t e v p ttl)
        rfl
    simp [apiCache.get, apiCache.getOp, hk]
  · intro he
    have hk : apiCache.clear (apiCache.set st t e2 v p2 ttl) e1 none
        (apiCache.encode e2 p2) =
        some ⟨e2, v, t, if ttl = 0 then apiCache.defaultTTL else ttl⟩ :=
      apiCache.clear_none_frame (apiCache.set_apply_self st t e2 v p2 ttl)
        (fun hh => he hh.symm)
    simp only [apiCache.get, apiCache.getOp, hk,
      apiCache.set_apply_self st t e2 v p2 ttl]
  · intro h
    exact apiCache.get_set_other h
  · intro h
    exact apiCache.get_clear_some_other h

/-- Witness for the amended C6: a concrete scoped clear removes only the
targeted parameter variant. -/
theorem C6_scoped_clear_non_interference_witness :
    apiCache.clear
      (apiCache.set apiCache.emptyCache 0 "/e" (JsVal.num 5)
        (some [("page", "1")]) 100)
      "/e" (some [("page", "1")])
      (apiCache.encode "/e" (some [("page", "1")])) = none ∧
    apiCache.clear
      (apiCache.set apiCache.emptyCache 0 "/e" (JsVal.num 5)
        (some [("page", "1")]) 100)
      "/e" (some [("page", "1")]) (apiCache.encode "/e" (some [("page", "2")])) =
      apiCache.set apiCache.emptyCache 0 "/e" (JsVal.num 5)
        (some [("page", "1")]) 100 (apiCache.encode "/e" (some [("page", "2")])) ∧
    apiCache.get
      (apiCache.set
        (apiCache.set apiCache.emptyCache 0 "/e2" (JsVal.num 9) none 100)
        0 "/e1" (JsVal.num 5) (some [("a", "1")]) 100)
      3 "/e2" none =
      apiCache.get
        (apiCache.set apiCache.emptyCache 0 "/e2" (JsVal.num 9) none 100)
        3 "/e2" none :=
  have h := C6_scoped_clear_non_interference
    (apiCache.set apiCache.emptyCache 0 "/e" (JsVal.num 5)
      (some [("page", "1")]) 100)
    3 0 "/e" "/e1" "/e2" [("page", "1")] none (some [("a", "1")]) none
    (JsVal.num 5) 100 ⟨"/e", JsVal.num 5, 0, 100⟩
    (apiCache.encode "/e" (some [("page", "2")]))
  have h2 := C6_scoped_clear_non_interference
    (apiCache.set apiCache.emptyCache 0 "/e2" (JsVal.num 9) none 100)
    3 0 "/e" "/e1" "/e2" [("page", "1")] none (some [("a", "1")]) none
    (JsVal.num 5) 100 ⟨"/e", JsVal.num 5, 0, 100⟩
    (apiCache.encode "/e" (some [("page", "2")]))
  ⟨h.1, h.2.1 (by decide), h2.2.2.2.2.2.2.1 (by decide)⟩

/-- A query-embedded endpoint string is never equal to a bare path shorter
than its fixed parts. -/
theorem ep_concat_ne (pre mid bare : String) (page limit : Nat)
    (h : bare.length < pre.length + mid.length) :
    pre ++ toString page ++ mid ++ toString limit ≠ bare := by
  intro hh
  have h2 := congrArg String.length hh
  simp only [String.length_append] at h2
  omega

/-- C7: `getLiveBasketballMatches` and `getBasketballFixtures` store their
responses under endpoint strings that embed the query string, with an empty
parameter mapping, while `clearBasketballLiveCache` and
`clearBasketballFixturesCache` (hence `clearAllBasketballCache`) clear the
bare paths, which equal no stored endpoint identifier — so
`clearAllBasketballCache` removes no entry stored by those wrappers, and a
`getLiveBasketballMatches` call within the TTL after it still returns the
cached value. -/
theorem C7_basketball_clear_removes_nothing (net : Transport)
    (st : apiCache.CacheState) (t now page limit : Nat) (v data : JsVal)
    (hmiss : apiCache.get st t ("/api/v1/basketball/live?page=" ++ toString page ++ "&limit=" ++ toString limit) none = none)
    (hnet : net ("/api/v1/basketball/live?page=" ++ toString page ++ "&limit=" ++ toString limit) none = Except.ok data)
    (hfmiss : apiCache.get st t ("/api/v1/basketball/fixtures?page=" ++ toString page ++ "&limit=" ++ toString limit) none = none)
    (hfnet : net ("/api/v1/basketball/fixtures?page=" ++ toString page ++ "&limit=" ++ toString limit) none = Except.ok data)
    (hlive : now - t < 30 * 1000) :
    getLiveBasketballMatches net st t page limit =
      ⟨Except.ok data,
        apiCache.set st t ("/api/v1/basketball/live?page=" ++ toString page ++ "&limit=" ++ toString limit) data (some []) (30 * 1000),
        [(("/api/v1/basketball/live?page=" ++ toString page ++ "&limit=" ++ toString limit), none)]⟩ ∧
    getBasketballFixtures net st t page limit =
      ⟨Except.ok data,
        apiCache.set st t ("/api/v1/basketball/fixtures?page=" ++ toString page ++ "&limit=" ++ toString limit) data (some []) (2 * 60 * 1000),
        [(("/api/v1/basketball/fixtures?page=" ++ toString page ++ "&limit=" ++ toString limit), none)]⟩ ∧
    ("/api/v1/basketball/live?page=" ++ toString page ++ "&limit=" ++ toString limit) ≠ "/api/v1/basketball/live" ∧
    ("/api/v1/basketball/live?page=" ++ toString page ++ "&limit=" ++ toString limit) ≠ "/api/v1/basketball/fixtures" ∧
    ("/api/v1/basketball/fixtures?page=" ++ toString page ++ "&limit=" ++ toString limit) ≠ "/api/v1/basketball/live" ∧
    ("/api/v1/basketball/fixtures?page=" ++ toString page ++ "&limit=" ++ toString limit) ≠ "/api/v1/basketball/fixtures" ∧
    apiCache.get (clearAllBasketballCache (apiCache.set st t ("/api/v1/basketball/live?page=" ++ toString page ++ "&limit=" ++ toString limit) v (some []) (30 * 1000))) now ("/api/v1/basketball/live?page=" ++ toString page ++ "&limit=" ++ toString limit) none =
      apiCache.get (apiCache.set st t ("/api/v1/basketball/live?page=" ++ toString page ++ "&limit=" ++ toString limit) v (some []) (30 * 1000)) now ("/api/v1/basketball/live?page=" ++ toString page ++ "&limit=" ++ toString limit) none ∧
    getLiveBasketballMatches net (clearAllBasketballCache (apiCache.set st t ("/api/v1/basketball/live?page=" ++ toString page ++ "&limit=" ++ toString limit) v (some []) (30 * 1000)))
      now page limit =
      ⟨Except.ok v, clearAllBasketballCache (apiCache.set st t ("/api/v1/basketball/live?page=" ++ toString page ++ "&limit=" ++ toString limit) v (some []) (30 * 1000)), []⟩ := by
  have hne1 : ("/api/v1/basketball/live?page=" ++ toString page ++ "&limit=" ++ toString limit) ≠ "/api/v1/basketball/live" :=
    ep_concat_ne "/api/v1/basketball/live?page=" "&limit=" _ page limit
      (by decide)
  have hne2 : ("/api/v1/basketball/live?page=" ++ toString page ++ "&limit=" ++ toString limit) ≠ "/api/v1/basketball/fixtures" :=
    ep_concat_ne "/api/v1/basketball/live?page=" "&limit=" _ page limit
      (by decide)
  have hne3 : ("/api/v1/basketball/fixtures?page=" ++ toString page ++ "&limit=" ++ toString limit) ≠ "/api/v1/basketball/live" :=
    ep_concat_ne "/api/v1/basketball/fixtures?page=" "&limit=" _ page limit
      (by decide)
  have hne4 : ("/api/v1/basketball/fixtures?page=" ++ toString page ++ "&limit=" ++ toString limit) ≠ "/api/v1/basketball/fixtures" :=
    ep_concat_ne "/api/v1/basketball/fixtures?page=" "&limit=" _ page limit
      (by decide)
  have h1 : (apiCache.set st t ("/api/v1/basketball/live?page=" ++ toString page ++ "&limit=" ++ toString limit) v (some []) (30 * 1000)) (apiCache.encode ("/api/v1/basketball/live?page=" ++ toString page ++ "&limit=" ++ toString limit) none) =
      some ⟨("/api/v1/basketball/live?page=" ++ toString page ++ "&limit=" ++ toString limit), v, t, 30 * 1000⟩ :=
    apiCache.set_apply_self st t ("/api/v1/basketball/live?page=" ++ toString page ++ "&limit=" ++ toString limit) v (some []) (30 * 1000)
  have h2 : clearAllBasketballCache (apiCache.set st t ("/api/v1/basketball/live?page=" ++ toString page ++ "&limit=" ++ toString limit) v (some []) (30 * 1000)) (apiCache.encode ("/api/v1/basketball/live?page=" ++ toString page ++ "&limit=" ++ toString limit) none) =
      some ⟨("/api/v1/basketball/live?page=" ++ toString page ++ "&limit=" ++ toString limit), v, t, 30 * 1000⟩ :=
    apiCache.clear_none_frame (apiCache.clear_none_frame h1 hne1) hne2
  have hget : apiCache.get (clearAllBasketballCache (apiCache.set st t ("/api/v1/basketball/live?page=" ++ toString page ++ "&limit=" ++ toString limit) v (some []) (30 * 1000))) now ("/api/v1/basketball/live?page=" ++ toString page ++ "&limit=" ++ toString limit) none =
      some v := by
    simp only [apiCache.get, apiCache.getOp, h2]
    simp [hlive]
  refine ⟨?_, ?_, hne1, hne2, hne3, hne4, ?_, ?_⟩
  · simp [getLiveBasketballMatches, hmiss, hnet]
  · simp [getBasketballFixtures, hfmiss, hfnet]
  · simp only [apiCache.get, apiCache.getOp, h1, h2]
  · simp [getLiveBasketballMatches, hget]

/-- Witness for C7: after storing a live-matches page and clearing all
basketball caches, the stored entry is still returned within its TTL. -/
theorem C7_basketball_clear_removes_nothing_witness :
    apiCache.get (clearAllBasketballCache (apiCache.set apiCache.emptyCache 0 ("/api/v1/basketball/live?page=" ++ toString 1 ++ "&limit=" ++ toString 50) (JsVal.num 3) (some []) (30 * 1000))) 5 ("/api/v1/basketball/live?page=" ++ toString 1 ++ "&limit=" ++ toString 50) none =
      apiCache.get (apiCache.set apiCache.emptyCache 0 ("/api/v1/basketball/live?page=" ++ toString 1 ++ "&limit=" ++ toString 50) (JsVal.num 3) (some []) (30 * 1000)) 5 ("/api/v1/basketball/live?page=" ++ toString 1 ++ "&limit=" ++ toString 50) none ∧
    getLiveBasketballMatches (fun _ _ => Except.ok (JsVal.num 4))
      (clearAllBasketballCache (apiCache.set apiCache.emptyCache 0 ("/api/v1/basketball/live?page=" ++ toString 1 ++ "&limit=" ++ toString 50) (JsVal.num 3) (some []) (30 * 1000))) 5 1 50 =
      ⟨Except.ok (JsVal.num 3), clearAllBasketballCache (apiCache.set apiCache.emptyCache 0 ("/api/v1/basketball/live?page=" ++ toString 1 ++ "&limit=" ++ toString 50) (JsVal.num 3) (some []) (30 * 1000)), []⟩ :=
  have h := C7_basketball_clear_removes_nothing
    (fun _ _ => Except.ok (JsVal.num 4)) apiCache.emptyCache 0 5 1 50
    (JsVal.num 3) (JsVal.num 4) (by decide) rfl (by decide) rfl (by decide)
  ⟨h.2.2.2.2.2.2.1, h.2.2.2.2.2.2.2⟩
